import Mathlib

/-!
Shallow embedding of the `blepo` video-feed pipeline (Rust) in Lean 4.

Rust `DateTime<Utc>` instants are modelled as `Int` (Unix seconds);
`chrono::Duration::days(n)` is `n * 86400` seconds.  Rust `HashSet<VideoId>`
is modelled as a `List VideoId` observed up to membership, with `HashSet
insert` as `insert_watched` (a no-op when the element is present).  Fallible
Rust functions returning `Result` are embedded as `Except`.  Trait objects
(`FeedFetcher`, `VideoStore`, `VideoPlayer`, `ShortsChecker`) become function
parameters; where a claim is about which collaborator calls happen, the
embedding additionally returns the list of calls in order.
-/

namespace Blepo

/-! ### Domain value objects (src/domain/channel.rs, src/domain/video.rs) -/

structure ChannelId where
  val : String
deriving DecidableEq, Repr

inductive ChannelIdError
  | empty
  /-- Rust `ChannelIdError::InvalidPrefix`: the id does not start with "UC". -/
  | invalidStart
deriving DecidableEq, Repr

/-- Embedding of Rust `id.starts_with("UC")` on the id string. -/
def startsWithUC (s : String) : Bool :=
  match s.data with
  | 'U' :: 'C' :: _ => true
  | _ => false

/-- `ChannelId::parse` (src/domain/channel.rs): reject empty, then reject a
missing "UC" start, else wrap the string. -/
def ChannelId.parse (id : String) : Except ChannelIdError ChannelId :=
  if id = "" then Except.error ChannelIdError.empty
  else if startsWithUC id then Except.ok ⟨id⟩
  else Except.error ChannelIdError.invalidStart

structure Channel where
  name : String
  id : ChannelId
deriving DecidableEq, Repr

structure VideoId where
  val : String
deriving DecidableEq, Repr

inductive VideoIdError
  | empty
deriving DecidableEq, Repr

/-- `VideoId::parse` (src/domain/video.rs): reject the empty string. -/
def VideoId.parse (id : String) : Except VideoIdError VideoId :=
  if id = "" then Except.error VideoIdError.empty
  else Except.ok ⟨id⟩

structure Video where
  id : VideoId
  title : String
  url : String
  published : Int
  channel_name : String
  channel_id : ChannelId
deriving DecidableEq, Repr

structure FetchWindowDays where
  val : Int
deriving DecidableEq, Repr

inductive FetchWindowDaysError
  | nonPositive
deriving DecidableEq, Repr

/-- `FetchWindowDays::parse` (src/domain/video.rs): reject `days <= 0`. -/
def FetchWindowDays.parse (days : Int) : Except FetchWindowDaysError FetchWindowDays :=
  if days ≤ 0 then Except.error FetchWindowDaysError.nonPositive
  else Except.ok ⟨days⟩

def FetchWindowDays.as_i64 (d : FetchWindowDays) : Int := d.val

structure VideoNumber where
  val : Nat
deriving DecidableEq, Repr

inductive VideoNumberError
  | zero
deriving DecidableEq, Repr

/-- `VideoNumber::parse` (src/domain/video.rs): reject `n == 0`. -/
def VideoNumber.parse (n : Nat) : Except VideoNumberError VideoNumber :=
  if n = 0 then Except.error VideoNumberError.zero
  else Except.ok ⟨n⟩

/-- `VideoNumber::to_index`: the 1-based ordinal minus one. -/
def VideoNumber.to_index (n : VideoNumber) : Nat := n.val - 1

/-! ### Domain list operations (src/domain/video.rs) -/

/-- `filter_unwatched`: keep videos whose id is not in the watched set. -/
def filter_unwatched (videos : List Video) (watched : List VideoId) : List Video :=
  videos.filter (fun v => !(decide (v.id ∈ watched)))

/-- `filter_by_window`: keep videos with `published >= after`. -/
def filter_by_window (videos : List Video) (after : Int) : List Video :=
  videos.filter (fun v => decide (after ≤ v.published))

/-- `sort_newest_first`: Rust `sort_by(|a, b| b.published.cmp(&a.published))`,
a stable sort into non-increasing publish order.  Element `a` may precede `b`
exactly when `b.published ≤ a.published`. -/
def sort_newest_first (videos : List Video) : List Video :=
  videos.mergeSort (fun a b => decide (b.published ≤ a.published))

/-! ### Ports (src/application/ports.rs) -/

inductive FetchError
  | network (msg : String)
  | httpError (code : Nat)
  | parseError (msg : String)
deriving DecidableEq, Repr

inductive StoreError
  | read (msg : String)
  | write (msg : String)
deriving DecidableEq, Repr

inductive PlayError
  | playerFailed (msg : String)
deriving DecidableEq, Repr

inductive AppError
  | store (e : StoreError)
  | play (e : PlayError)
deriving DecidableEq, Repr

/-! ### Use cases (src/application/use_cases.rs)

`fetch_videos` takes the collaborators as functions: `fetcher` for the
`FeedFetcher` trait object, `load_watched` for the single outcome of the
store's `load_watched` call, `is_short` for the `ShortsChecker`.  `now` is the
value of `Utc::now()` at the start of the run. -/

/-- The cutoff instant: `Utc::now() - Duration::days(fetch_window_days)`. -/
def cutoff (now : Int) (fetch_window_days : FetchWindowDays) : Int :=
  now - fetch_window_days.as_i64 * 86400

/-- The fetch stage of `fetch_videos`: per channel, fetch and window-filter
against the cutoff `c`; a failing channel contributes the empty list (its
error is only logged); results are concatenated in channel order. -/
def fetched_videos (channels : List Channel)
    (fetcher : Channel → Except FetchError (List Video)) (c : Int) : List Video :=
  (channels.map (fun ch =>
      match fetcher ch with
      | Except.ok fetched => filter_by_window fetched c
      | Except.error _ => [])).flatten

/-- `fetch_videos`: per channel, fetch and window-filter (a failing channel
contributes nothing), concatenate in channel order, sort newest first, load
the watched set, drop watched videos, then drop videos the shorts checker
classifies as short. -/
def fetch_videos (channels : List Channel)
    (fetcher : Channel → Except FetchError (List Video))
    (load_watched : Except StoreError (List VideoId))
    (is_short : VideoId → Bool)
    (fetch_window_days : FetchWindowDays)
    (now : Int) : Except AppError (List Video) :=
  let sorted := sort_newest_first (fetched_videos channels fetcher (cutoff now fetch_window_days))
  match load_watched with
  | Except.error e => Except.error (AppError.store e)
  | Except.ok watched =>
      let unwatched := filter_unwatched sorted watched
      Except.ok (unwatched.filter (fun v => !(is_short v.id)))

/-- A collaborator call made during a `fetch_videos` run, in program order:
a feed fetch for a channel, the store's `load_watched`, or a shorts check. -/
inductive Ev
  | fetchEv (c : ChannelId)
  | loadEv
  | shortEv (v : VideoId)
  /-- A store mutation (`mark_watched`); `fetch_videos` never performs one. -/
  | markEv (v : VideoId)
deriving DecidableEq, Repr

/-- Is this call a feed fetch? -/
def Ev.isFetchCall : Ev → Bool
  | Ev.fetchEv _ => true
  | _ => false

/-- Is this call a shorts-classifier check? -/
def Ev.isShortCall : Ev → Bool
  | Ev.shortEv _ => true
  | _ => false

/-- Is this call a store mutation? -/
def Ev.isMarkCall : Ev → Bool
  | Ev.markEv _ => true
  | _ => false

/-- `fetch_videos` instrumented with the list of collaborator calls in the
order the code makes them: the fetch stage (one fetch per channel, all joined
before the next stage), then the single `load_watched`, then (when the load
succeeded) one shorts check per unwatched video. -/
def fetch_videos_tr (channels : List Channel)
    (fetcher : Channel → Except FetchError (List Video))
    (load_watched : Except StoreError (List VideoId))
    (is_short : VideoId → Bool)
    (fetch_window_days : FetchWindowDays)
    (now : Int) : Except AppError (List Video) × List Ev :=
  let fetch_calls := channels.map (fun ch => Ev.fetchEv ch.id)
  let sorted := sort_newest_first (fetched_videos channels fetcher (cutoff now fetch_window_days))
  match load_watched with
  | Except.error e => (Except.error (AppError.store e), fetch_calls ++ [Ev.loadEv])
  | Except.ok watched =>
      let unwatched := filter_unwatched sorted watched
      (Except.ok (unwatched.filter (fun v => !(is_short v.id))),
       fetch_calls ++ Ev.loadEv :: unwatched.map (fun v => Ev.shortEv v.id))

/-- The ordering asserted by the spec: the store read happens at pipeline
start, i.e. no fetch call precedes the load call in the run's call list. -/
def load_at_start (tr : List Ev) : Bool :=
  (tr.takeWhile (fun e => !(e == Ev.loadEv))).all (fun e => !(Ev.isFetchCall e))

/-- Rust `HashSet::insert` on the watched set: a no-op when the id is already
present, else the id is added. -/
def insert_watched (id : VideoId) (watched : List VideoId) : List VideoId :=
  if id ∈ watched then watched else watched ++ [id]

/-- `mark_and_play`: play the video's URL; only on success mark it watched.
Besides the result and the updated watched set, the embedding returns the
URLs the player was invoked with and the ids the store's `mark_watched` was
invoked with, in order.  `do_mark` is the store's `mark_watched` acting on
the watched set (it may fail with a `StoreError`, leaving the set unchanged). -/
def mark_and_play (video : Video)
    (play : String → Except PlayError Unit)
    (do_mark : VideoId → List VideoId → Except StoreError (List VideoId))
    (watched : List VideoId) :
    Except AppError Unit × List VideoId × List String × List VideoId :=
  match play video.url with
  | Except.error e => (Except.error (AppError.play e), watched, [video.url], [])
  | Except.ok _ =>
      match do_mark video.id watched with
      | Except.error e => (Except.error (AppError.store e), watched, [video.url], [video.id])
      | Except.ok w => (Except.ok (), w, [video.url], [video.id])

/-- `mark_as_watched` (src/application/use_cases.rs): mark without playing. -/
def mark_as_watched (video : Video)
    (do_mark : VideoId → List VideoId → Except StoreError (List VideoId))
    (watched : List VideoId) : Except AppError (List VideoId) :=
  match do_mark video.id watched with
  | Except.error e => Except.error (AppError.store e)
  | Except.ok w => Except.ok w

/-! ### JSON store (src/infrastructure/json_store.rs)

The watched file on disk is modelled as a `FileState`: absent, unreadable,
holding invalid JSON, or holding a valid watched set.  `load_watched` and
`mark_watched` are embedded over this state; the write in `mark_watched` is
modelled as succeeding (file-system write failure is outside the claims). -/

inductive FileState
  | missing
  | unreadable
  | corrupt
  | valid (watched : List VideoId)
deriving DecidableEq, Repr

namespace JsonVideoStore

/-- `JsonVideoStore::load_watched`: a missing file is the empty set; a read
failure or invalid JSON is a `StoreError::Read`; otherwise the parsed set. -/
def load_watched : FileState → Except StoreError (List VideoId)
  | FileState.missing => Except.ok []
  | FileState.unreadable => Except.error (StoreError.read "cannot read watched")
  | FileState.corrupt => Except.error (StoreError.read "invalid watched json")
  | FileState.valid w => Except.ok w

/-- `JsonVideoStore::mark_watched`: load the current set, insert the id, and
write the result back. -/
def mark_watched (fs : FileState) (video_id : VideoId) : Except StoreError FileState :=
  match load_watched fs with
  | Except.error e => Except.error e
  | Except.ok watched => Except.ok (FileState.valid (insert_watched video_id watched))

end JsonVideoStore

/-! ### Fallback fetcher (src/infrastructure/fallback_fetcher.rs) -/

/-- `FallbackFetcher::fetch`: call the primary fetcher; exactly on HTTP 404
call the fallback and return its result, otherwise return the primary's
result unchanged. -/
def FallbackFetcher.fetch
    (primary fallback : Channel → Except FetchError (List Video))
    (channel : Channel) : Except FetchError (List Video) :=
  match primary channel with
  | Except.error (FetchError.httpError 404) => fallback channel
  | other => other

/-! ### Concrete sample data used by witnesses -/

def vidA : Video :=
  { id := ⟨"v1"⟩, title := "A", url := "https://youtube.com/watch?v=v1",
    published := 5, channel_name := "chan", channel_id := ⟨"UC1"⟩ }

def chanA : Channel := { name := "chan", id := ⟨"UC1"⟩ }

def sevenDays : FetchWindowDays := ⟨7⟩

/-! ### Helper lemmas -/

theorem mem_insert_watched_self (id : VideoId) (w : List VideoId) :
    id ∈ insert_watched id w := by
  unfold insert_watched
  split
  · assumption
  · simp

theorem insert_watched_of_mem {id : VideoId} {w : List VideoId} (h : id ∈ w) :
    insert_watched id w = w := by
  unfold insert_watched
  simp [h]

/-! ### Claim theorems -/

/-- C10: `JsonVideoStore::load_watched` on a missing watched file returns the
empty watched set, never a read error. -/
theorem load_watched_missing_file :
    JsonVideoStore.load_watched FileState.missing = Except.ok [] := rfl

/-- C4: `filter_by_window` returns exactly the videos published at or after
the cutoff (with multiplicity), keeps their original relative order, and a
video published exactly at the cutoff is included. -/
theorem filter_by_window_spec (V : List Video) (C : Int) :
    (filter_by_window V C).Sublist V ∧
    (∀ v : Video, v ∈ filter_by_window V C ↔ v ∈ V ∧ C ≤ v.published) ∧
    (∀ v : Video, v ∈ V → v.published = C → v ∈ filter_by_window V C) ∧
    (∀ v : Video, List.count v (filter_by_window V C) =
      if C ≤ v.published then List.count v V else 0) := by
  refine ⟨List.filter_sublist V, ?_, ?_, ?_⟩
  · intro v
    simp [filter_by_window, List.mem_filter]
  · intro v hv hpub
    simp [filter_by_window, List.mem_filter, hv, hpub]
  · intro v
    by_cases h : C ≤ v.published
    · rw [if_pos h]
      exact List.count_filter (by simpa using h)
    · rw [if_neg h]
      rw [List.count_eq_zero]
      intro hmem
      exact h ((by simpa [filter_by_window, List.mem_filter] using hmem : _ ∧ _).2)

/-- Witness for `filter_by_window_spec`: a concrete video published exactly
at the cutoff is in the output. -/
theorem filter_by_window_spec_witness : vidA ∈ filter_by_window [vidA] 5 :=
  (filter_by_window_spec [vidA] 5).2.2.1 vidA (by simp) rfl

/-- C2: `FallbackFetcher::fetch` delegates to the secondary fetcher exactly
when the primary fails with HTTP 404 and returns the secondary's result
verbatim; on every other primary outcome the primary's result is returned
unchanged and the result does not depend on the secondary fetcher at all. -/
theorem fallback_fetch_spec
    (primary fallback : Channel → Except FetchError (List Video)) (channel : Channel) :
    (primary channel = Except.error (FetchError.httpError 404) →
      FallbackFetcher.fetch primary fallback channel = fallback channel) ∧
    (primary channel ≠ Except.error (FetchError.httpError 404) →
      FallbackFetcher.fetch primary fallback channel = primary channel ∧
      ∀ g, FallbackFetcher.fetch primary g channel = primary channel) := by
  constructor
  · intro h
    unfold FallbackFetcher.fetch
    rw [h]
  · intro h
    have key : ∀ g, FallbackFetcher.fetch primary g channel = primary channel := by
      intro g
      unfold FallbackFetcher.fetch
      split
      · next heq => exact absurd heq h
      · rfl
    exact ⟨key fallback, key⟩

/-- Witness for `fallback_fetch_spec`: with a primary that returns 404 the
secondary's (successful) result is returned. -/
theorem fallback_fetch_spec_witness :
    FallbackFetcher.fetch (fun _ => Except.error (FetchError.httpError 404))
      (fun _ => Except.ok [vidA]) chanA = Except.ok [vidA] :=
  (fallback_fetch_spec (fun _ => Except.error (FetchError.httpError 404))
    (fun _ => Except.ok [vidA]) chanA).1 rfl

/-- C7: each value-object constructor succeeds exactly on valid input —
`ChannelId.parse` iff non-empty with a "UC" start, `VideoId.parse` iff
non-empty, `FetchWindowDays.parse` iff positive, `VideoNumber.parse` iff at
least 1 — and on success wraps exactly the validated input; `to_index`
yields the 0-based offset `n - 1`. -/
theorem value_object_parse_spec (s : String) (d : Int) (n : Nat) :
    ((∃ v, ChannelId.parse s = Except.ok v) ↔ (s ≠ "" ∧ startsWithUC s = true)) ∧
    (∀ v, ChannelId.parse s = Except.ok v → v = ⟨s⟩) ∧
    ((∃ v, VideoId.parse s = Except.ok v) ↔ s ≠ "") ∧
    (∀ v, VideoId.parse s = Except.ok v → v = ⟨s⟩) ∧
    ((∃ v, FetchWindowDays.parse d = Except.ok v) ↔ 0 < d) ∧
    (∀ v, FetchWindowDays.parse d = Except.ok v → v.as_i64 = d) ∧
    ((∃ v, VideoNumber.parse n = Except.ok v) ↔ 1 ≤ n) ∧
    (∀ v, VideoNumber.parse n = Except.ok v → v.val = n ∧ v.to_index = n - 1) := by
  unfold ChannelId.parse VideoId.parse FetchWindowDays.parse VideoNumber.parse
    FetchWindowDays.as_i64 VideoNumber.to_index
  refine ⟨?_, ?_, ?_, ?_, ?_, ?_, ?_, ?_⟩ <;> split_ifs <;> simp_all
  omega

/-- Witness for `value_object_parse_spec`: concrete valid inputs succeed. -/
theorem value_object_parse_spec_witness :
    (∃ v, ChannelId.parse "UC1" = Except.ok v) ∧
    (∃ v, FetchWindowDays.parse 7 = Except.ok v) ∧
    (∃ v, VideoNumber.parse 3 = Except.ok v) :=
  ⟨(value_object_parse_spec "UC1" 7 3).1.mpr ⟨by decide, rfl⟩,
   (value_object_parse_spec "UC1" 7 3).2.2.2.2.1.mpr (by decide),
   (value_object_parse_spec "UC1" 7 3).2.2.2.2.2.2.1.mpr (by decide)⟩

/-- C3: `mark_and_play` invokes the player with exactly the video's URL; on
player failure the store's `mark_watched` is never invoked, the watched set
is untouched and the play error is returned; on player success `mark_watched`
is invoked with exactly the video's id, so with a store that records marks
the id is in the watched set afterward. -/
theorem mark_and_play_spec (video : Video)
    (play : String → Except PlayError Unit)
    (do_mark : VideoId → List VideoId → Except StoreError (List VideoId))
    (watched : List VideoId) :
    (mark_and_play video play do_mark watched).2.2.1 = [video.url] ∧
    (∀ e, play video.url = Except.error e →
      mark_and_play video play do_mark watched =
        (Except.error (AppError.play e), watched, [video.url], [])) ∧
    (play video.url = Except.ok () →
      (mark_and_play video play do_mark watched).2.2.2 = [video.id]) ∧
    (play video.url = Except.ok () →
      video.id ∈ (mark_and_play video play
        (fun i s => Except.ok (insert_watched i s)) watched).2.1) := by
  refine ⟨?_, ?_, ?_, ?_⟩
  · unfold mark_and_play
    split
    · rfl
    · split <;> rfl
  · intro e he
    unfold mark_and_play
    rw [he]
  · intro hok
    cases hdm : do_mark video.id watched <;> simp [mark_and_play, hok, hdm]
  · intro hok
    unfold mark_and_play
    rw [hok]
    show video.id ∈ insert_watched video.id watched
    exact mem_insert_watched_self video.id watched

/-- Witness for `mark_and_play_spec`: with a succeeding player and the
recording store, the played video's id is watched afterward. -/
theorem mark_and_play_spec_witness :
    vidA.id ∈ (mark_and_play vidA (fun _ => Except.ok ())
      (fun i s => Except.ok (insert_watched i s)) []).2.1 :=
  (mark_and_play_spec vidA (fun _ => Except.ok ())
    (fun i s => Except.ok (insert_watched i s)) []).2.2.2 rfl

/-- C8: marking an already-watched id rewrites the same watched set, so a
subsequent load observes it unchanged; and marking twice leaves the same
observable watched set as marking once. -/
theorem mark_watched_idempotent (fs : FileState) (id : VideoId) (w : List VideoId)
    (hload : JsonVideoStore.load_watched fs = Except.ok w) :
    (id ∈ w → JsonVideoStore.mark_watched fs id = Except.ok (FileState.valid w)) ∧
    (∀ fs₁ fs₂, JsonVideoStore.mark_watched fs id = Except.ok fs₁ →
      JsonVideoStore.mark_watched fs₁ id = Except.ok fs₂ →
      JsonVideoStore.load_watched fs₂ = JsonVideoStore.load_watched fs₁) := by
  have step : ∀ w' : List VideoId,
      JsonVideoStore.mark_watched (FileState.valid w') id =
        Except.ok (FileState.valid (insert_watched id w')) := fun _ => rfl
  constructor
  · intro hmem
    cases fs with
    | missing => simp_all [JsonVideoStore.load_watched]
    | unreadable => simp_all [JsonVideoStore.load_watched]
    | corrupt => simp_all [JsonVideoStore.load_watched]
    | valid w' =>
        have hw : w' = w := by
          simpa [JsonVideoStore.load_watched] using hload
        subst hw
        rw [step, insert_watched_of_mem hmem]
  · intro fs₁ fs₂ h1 h2
    cases fs with
    | missing =>
        have hw : w = [] := by
          simpa [JsonVideoStore.load_watched] using hload.symm
        subst hw
        have h1' : fs₁ = FileState.valid (insert_watched id []) := by
          simpa [JsonVideoStore.mark_watched, JsonVideoStore.load_watched] using h1.symm
        subst h1'
        have h2' : fs₂ = FileState.valid (insert_watched id (insert_watched id [])) := by
          simpa [JsonVideoStore.mark_watched, JsonVideoStore.load_watched] using h2.symm
        subst h2'
        rw [insert_watched_of_mem (mem_insert_watched_self id [])]
    | unreadable => simp_all [JsonVideoStore.mark_watched, JsonVideoStore.load_watched]
    | corrupt => simp_all [JsonVideoStore.mark_watched, JsonVideoStore.load_watched]
    | valid w' =>
        have h1' : fs₁ = FileState.valid (insert_watched id w') := by
          simpa [JsonVideoStore.mark_watched, JsonVideoStore.load_watched] using h1.symm
        subst h1'
        have h2' : fs₂ = FileState.valid (insert_watched id (insert_watched id w')) := by
          simpa [JsonVideoStore.mark_watched, JsonVideoStore.load_watched] using h2.symm
        subst h2'
        rw [insert_watched_of_mem (mem_insert_watched_self id w')]

/-- Witness for `mark_watched_idempotent`: re-marking a concrete already
watched id leaves the stored set unchanged. -/
theorem mark_watched_idempotent_witness :
    JsonVideoStore.mark_watched (FileState.valid [⟨"v1"⟩]) ⟨"v1"⟩ =
      Except.ok (FileState.valid [⟨"v1"⟩]) :=
  (mark_watched_idempotent (FileState.valid [⟨"v1"⟩]) ⟨"v1"⟩ [⟨"v1"⟩] rfl).1 (by simp)

/-- The comparator of `sort_newest_first` is transitive. -/
theorem newest_le_trans (a b c : Video) :
    decide (b.published ≤ a.published) = true →
    decide (c.published ≤ b.published) = true →
    decide (c.published ≤ a.published) = true := by
  simp only [decide_eq_true_eq]
  exact fun h1 h2 => le_trans h2 h1

/-- The comparator of `sort_newest_first` is total. -/
theorem newest_le_total (a b : Video) :
    (decide (b.published ≤ a.published) || decide (a.published ≤ b.published)) = true := by
  rcases le_total b.published a.published with h | h <;> simp [h]

/-- C5: `sort_newest_first` permutes its input into non-increasing publish
order, and it is stable: for any timestamp, the videos carrying it appear in
the output exactly as they appeared in the input. -/
theorem sort_newest_first_spec (l : List Video) :
    (sort_newest_first l).Perm l ∧
    List.Pairwise (fun a b : Video => b.published ≤ a.published) (sort_newest_first l) ∧
    (∀ t : Int, (sort_newest_first l).filter (fun v => decide (v.published = t)) =
      l.filter (fun v => decide (v.published = t))) := by
  refine ⟨List.mergeSort_perm l _, ?_, ?_⟩
  · have h : List.Pairwise
        (fun a b : Video => decide (b.published ≤ a.published) = true)
        (sort_newest_first l) :=
      List.sorted_mergeSort (fun a b c => newest_le_trans a b c)
        (fun a b => newest_le_total a b) l
    exact h.imp (fun hab => by simpa using hab)
  · intro t
    have hmem_p : ∀ a ∈ l.filter (fun v : Video => decide (v.published = t)),
        a.published = t := by
      intro a ha
      simpa using (List.mem_filter.1 ha).2
    have hc_pair : List.Pairwise
        (fun a b : Video => decide (b.published ≤ a.published) = true)
        (l.filter (fun v => decide (v.published = t))) := by
      apply List.pairwise_of_forall_mem_list
      intro a ha b hb
      simp [hmem_p a ha, hmem_p b hb]
    have hsub : (l.filter (fun v => decide (v.published = t))).Sublist
        (sort_newest_first l) :=
      List.sublist_mergeSort (fun a b c => newest_le_trans a b c)
        (fun a b => newest_le_total a b) hc_pair (List.filter_sublist l)
    have hself : (l.filter (fun v : Video => decide (v.published = t))).filter
        (fun v => decide (v.published = t)) =
        l.filter (fun v => decide (v.published = t)) :=
      List.filter_eq_self.mpr (fun a ha => (List.mem_filter.1 ha).2)
    have hsub2 : (l.filter (fun v => decide (v.published = t))).Sublist
        ((sort_newest_first l).filter (fun v => decide (v.published = t))) := by
      have h := hsub.filter (fun v => decide (v.published = t))
      rwa [hself] at h
    have hperm : ((sort_newest_first l).filter (fun v => decide (v.published = t))).Perm
        (l.filter (fun v => decide (v.published = t))) :=
      (List.mergeSort_perm l _).filter _
    exact (hsub2.eq_of_length hperm.length_eq.symm).symm

/-- C1: every video in a successful `fetch_videos` result is published at or
after the cutoff, absent from the watched set loaded during the run, and not
classified as a short. -/
theorem fetch_videos_invariant (channels : List Channel)
    (fetcher : Channel → Except FetchError (List Video))
    (load_watched : Except StoreError (List VideoId))
    (is_short : VideoId → Bool)
    (d : FetchWindowDays) (now : Int)
    (videos : List Video) (watched : List VideoId)
    (hload : load_watched = Except.ok watched)
    (hrun : fetch_videos channels fetcher load_watched is_short d now = Except.ok videos) :
    ∀ v ∈ videos, cutoff now d ≤ v.published ∧ v.id ∉ watched ∧ is_short v.id = false := by
  subst hload
  have heq : fetch_videos channels fetcher (Except.ok watched) is_short d now =
      Except.ok ((filter_unwatched
        (sort_newest_first (fetched_videos channels fetcher (cutoff now d))) watched).filter
        (fun v => !(is_short v.id))) := rfl
  rw [heq] at hrun
  injection hrun with hrun
  subst hrun
  intro v hv
  rw [List.mem_filter] at hv
  obtain ⟨hv1, hshort⟩ := hv
  rw [filter_unwatched, List.mem_filter] at hv1
  obtain ⟨hv2, hwatched⟩ := hv1
  rw [sort_newest_first, List.mem_mergeSort] at hv2
  refine ⟨?_, by simpa using hwatched, by simpa using hshort⟩
  rw [fetched_videos, List.mem_flatten] at hv2
  obtain ⟨lch, hlch, hvl⟩ := hv2
  rw [List.mem_map] at hlch
  obtain ⟨ch, _, rfl⟩ := hlch
  cases hf : fetcher ch with
  | ok fetched =>
      rw [hf] at hvl
      exact (by simpa [filter_by_window] using hvl :
        v ∈ fetched ∧ cutoff now d ≤ v.published).2
  | error e =>
      rw [hf] at hvl
      simp at hvl

/-- Witness for `fetch_videos_invariant`: a concrete successful run with one
channel and one fresh video, evaluated at that video. -/
theorem fetch_videos_invariant_witness :
    cutoff 5 sevenDays ≤ vidA.published ∧ vidA.id ∉ ([] : List VideoId) ∧
      (fun _ : VideoId => false) vidA.id = false := by
  refine fetch_videos_invariant [chanA] (fun _ => Except.ok [vidA]) (Except.ok [])
    (fun _ => false) sevenDays 5 [vidA] [] rfl ?_ vidA (by simp)
  simp [fetch_videos, fetched_videos, sort_newest_first, filter_unwatched,
    filter_by_window, cutoff, FetchWindowDays.as_i64, sevenDays, vidA]

/-- C6: a channel whose fetch fails contributes nothing and does not fail the
pipeline — with one failing and one succeeding channel the result equals the
run on the succeeding channel alone; an empty channel list yields the empty
result. -/
theorem fetch_videos_failure_isolation (bad good : Channel)
    (fetcher : Channel → Except FetchError (List Video))
    (load_watched : Except StoreError (List VideoId))
    (is_short : VideoId → Bool) (d : FetchWindowDays) (now : Int) (e : FetchError)
    (hbad : fetcher bad = Except.error e) :
    fetch_videos [bad, good] fetcher load_watched is_short d now =
      fetch_videos [good] fetcher load_watched is_short d now ∧
    (∀ w, load_watched = Except.ok w →
      fetch_videos [] fetcher load_watched is_short d now = Except.ok []) := by
  constructor
  · have hfv : fetched_videos [bad, good] fetcher (cutoff now d) =
        fetched_videos [good] fetcher (cutoff now d) := by
      simp [fetched_videos, hbad]
    unfold fetch_videos
    rw [hfv]
  · intro w hw
    subst hw
    simp [fetch_videos, fetched_videos, sort_newest_first, filter_unwatched]

/-- Witness for `fetch_videos_failure_isolation`: concrete channels, with a
fetcher that fails on every channel. -/
theorem fetch_videos_failure_isolation_witness :
    fetch_videos [chanA, chanA] (fun _ => Except.error (FetchError.network "x"))
        (Except.ok []) (fun _ => false) sevenDays 0 =
      fetch_videos [chanA] (fun _ => Except.error (FetchError.network "x"))
        (Except.ok []) (fun _ => false) sevenDays 0 :=
  (fetch_videos_failure_isolation chanA chanA
    (fun _ => Except.error (FetchError.network "x")) (Except.ok [])
    (fun _ => false) sevenDays 0 (FetchError.network "x") rfl).1

/-- Counterexample to C9 as stated: in a concrete run with one channel the
feed fetch happens before the store read, so the watched-set read does not
occur at pipeline start (before the fetch stage). -/
theorem fetch_videos_load_not_at_start_cex :
    load_at_start ((fetch_videos_tr [chanA] (fun _ => Except.ok [])
      (Except.ok []) (fun _ => false) sevenDays 0).2) = false := by
  have htr : (fetch_videos_tr [chanA] (fun _ => Except.ok []) (Except.ok [])
      (fun _ => false) sevenDays 0).2 = [Ev.fetchEv ⟨"UC1"⟩, Ev.loadEv] := by
    simp [fetch_videos_tr, fetched_videos, sort_newest_first, filter_unwatched,
      filter_by_window, chanA]
  rw [htr]
  rfl

/-- C9 amended: in every run the store's load happens exactly once, placed
after the fetch stage completes and before any shorts classification; the
run performs no store mutation. -/
theorem fetch_videos_load_once (channels : List Channel)
    (fetcher : Channel → Except FetchError (List Video))
    (load_watched : Except StoreError (List VideoId))
    (is_short : VideoId → Bool) (d : FetchWindowDays) (now : Int) :
    List.count Ev.loadEv (fetch_videos_tr channels fetcher load_watched is_short d now).2 = 1 ∧
    (∃ post,
      (fetch_videos_tr channels fetcher load_watched is_short d now).2 =
        channels.map (fun ch => Ev.fetchEv ch.id) ++ Ev.loadEv :: post ∧
      post.all Ev.isShortCall = true) ∧
    ((fetch_videos_tr channels fetcher load_watched is_short d now).2.all
      (fun e => !(Ev.isMarkCall e))) = true := by
  have hfetch_no_load :
      List.count Ev.loadEv (channels.map (fun ch => Ev.fetchEv ch.id)) = 0 := by
    rw [List.count_eq_zero]
    simp
  have hfetch_no_mark :
      ∀ e ∈ channels.map (fun ch => Ev.fetchEv ch.id), (!(Ev.isMarkCall e)) = true := by
    intro e he
    rw [List.mem_map] at he
    obtain ⟨ch, _, rfl⟩ := he
    rfl
  cases hl : load_watched with
  | error err =>
      have htr : (fetch_videos_tr channels fetcher (Except.error err) is_short d now).2 =
          channels.map (fun ch => Ev.fetchEv ch.id) ++ [Ev.loadEv] := rfl
      refine ⟨?_, ⟨[], by simpa using htr, rfl⟩, ?_⟩
      · rw [htr, List.count_append, hfetch_no_load]
        rfl
      · rw [htr, List.all_append]
        simp only [Bool.and_eq_true, List.all_eq_true]
        exact ⟨hfetch_no_mark, by simp [Ev.isMarkCall]⟩
  | ok watched =>
      have htr : (fetch_videos_tr channels fetcher (Except.ok watched) is_short d now).2 =
          channels.map (fun ch => Ev.fetchEv ch.id) ++ Ev.loadEv ::
            (filter_unwatched (sort_newest_first
              (fetched_videos channels fetcher (cutoff now d))) watched).map
              (fun v => Ev.shortEv v.id) := rfl
      have hshort_no_load : List.count Ev.loadEv
          ((filter_unwatched (sort_newest_first
            (fetched_videos channels fetcher (cutoff now d))) watched).map
            (fun v => Ev.shortEv v.id)) = 0 := by
        rw [List.count_eq_zero]
        simp
      refine ⟨?_, ⟨_, htr, ?_⟩, ?_⟩
      · rw [htr, List.count_append, hfetch_no_load, List.count_cons, hshort_no_load]
        rfl
      · rw [List.all_eq_true]
        intro e he
        rw [List.mem_map] at he
        obtain ⟨v, _, rfl⟩ := he
        rfl
      · rw [htr, List.all_append]
        simp only [Bool.and_eq_true, List.all_eq_true]
        refine ⟨hfetch_no_mark, ?_⟩
        intro e he
        rcases List.mem_cons.1 he with rfl | he
        · rfl
        · rw [List.mem_map] at he
          obtain ⟨v, _, rfl⟩ := he
          rfl

end Blepo
